import Mathlib

/-!
# Verification of the inventree-wireviz frontend panel logic

This development embeds the view-model logic of the WireViz plugin frontend
(`src/frontend/src/WirevizPanel.tsx` and `src/frontend/src/WirevizSettings.tsx`)
into Lean and settles the specification's claims about it.

The host hands the panel a loosely-typed JavaScript context object, so the
embedding has two layers:

* a `JsVal` layer modelling JavaScript values together with the operators the
  source uses on the raw context (`??` nullish coalescing, `?.` optional
  chaining, property access, truthiness, `.length`, `> 0`, and `.map` which
  throws on non-arrays);
* a typed layer for the BOM-row resolution and the section-rendering guards,
  at the field types the spec's data model declares
  (`string | null`, `integer | null`, arrays of strings).
-/

/-- A JavaScript value, as far as the panel code observes it.  `jundefined` is
JavaScript `undefined`, `jnull` is JavaScript `null`; objects are association
lists of named fields (first binding wins, as in a JS object literal read). -/
inductive JsVal where
  | jundefined : JsVal
  | jnull : JsVal
  | jbool : Bool → JsVal
  | jnum : Int → JsVal
  | jstr : String → JsVal
  | jarr : List JsVal → JsVal
  | jobj : List (String × JsVal) → JsVal

/-- A value is nullish when it is `undefined` or `null` (the values the `??`
and `?.` operators react to). -/
def nullish : JsVal → Bool
  | .jundefined => true
  | .jnull => true
  | _ => false

/-- The JavaScript nullish-coalescing operator `a ?? b`. -/
def jsCoalesce (a b : JsVal) : JsVal :=
  if nullish a then b else a

/-- Property access `v[key]` on a non-nullish receiver: a missing field, or a
receiver that is not an object, reads as `undefined`. -/
def jsGetField : JsVal → String → JsVal
  | .jobj fields, key => (fields.lookup key).getD .jundefined
  | _, _ => .jundefined

/-- Optional chaining `v?.key`: `undefined` when the receiver is nullish,
otherwise a plain property access. -/
def jsOptChainField (v : JsVal) (key : String) : JsVal :=
  if nullish v then .jundefined else jsGetField v key

/-- JavaScript truthiness: `undefined`, `null`, `false`, `0` and the empty
string are falsy; every array and object is truthy. -/
def truthy : JsVal → Bool
  | .jundefined => false
  | .jnull => false
  | .jbool b => b
  | .jnum n => n != 0
  | .jstr s => s != ""
  | .jarr _ => true
  | .jobj _ => true

/-- `WirevizPanel`: `const wirevizContext = context?.context ?? {}`. -/
def wirevizContextOf (context : JsVal) : JsVal :=
  jsCoalesce (jsOptChainField context "context") (.jobj [])

/-- `WirevizPanel`: `const bomRows = wirevizContext.wireviz_bom_data ?? []`. -/
def bomRows (context : JsVal) : JsVal :=
  jsCoalesce (jsGetField (wirevizContextOf context) "wireviz_bom_data") (.jarr [])

/-- `WirevizPanel`: `const wirevizDiagram = wirevizContext.wireviz_svg_file ?? null`. -/
def wirevizDiagram (context : JsVal) : JsVal :=
  jsCoalesce (jsGetField (wirevizContextOf context) "wireviz_svg_file") .jnull

/-- `WirevizPanel`: `const wirevizErrors = wirevizContext.wireviz_errors ?? []`. -/
def wirevizErrors (context : JsVal) : JsVal :=
  jsCoalesce (jsGetField (wirevizContextOf context) "wireviz_errors") (.jarr [])

/-- `WirevizPanel`: `const wirevizWarnings = wirevizContext.wireviz_warnings ?? []`. -/
def wirevizWarnings (context : JsVal) : JsVal :=
  jsCoalesce (jsGetField (wirevizContextOf context) "wireviz_warnings") (.jarr [])

/-- `WirevizPanel`: `const wirevizSource = wirevizContext.wireviz_source_file ?? null`. -/
def wirevizSource (context : JsVal) : JsVal :=
  jsCoalesce (jsGetField (wirevizContextOf context) "wireviz_source_file") .jnull

/-- `WirevizPanel`: `const canEdit = wirevizContext.context?.can_edit ?? false`.
The TypeScript annotation claims `boolean`, but at runtime any non-nullish
field value passes through, so the embedding keeps the raw `JsVal`. -/
def canEdit (context : JsVal) : JsVal :=
  jsCoalesce (jsOptChainField (jsGetField (wirevizContextOf context) "context") "can_edit")
    (.jbool false)

/-- A host plugin context whose `context.context` field holds exactly the given
wireviz fields (the shape the host supplies to the panel). -/
def mkCtx (fields : List (String × JsVal)) : JsVal :=
  .jobj [("context", .jobj fields)]

theorem wirevizContextOf_mkCtx (fields : List (String × JsVal)) :
    wirevizContextOf (mkCtx fields) = .jobj fields := rfl

theorem jsGetField_jobj (fields : List (String × JsVal)) (key : String) :
    jsGetField (.jobj fields) key = (fields.lookup key).getD .jundefined := rfl

/-- The `.length` property: arrays and strings have a numeric length; a plain
object may carry its own `length` field; anything else reads as `undefined`. -/
def jsLength : JsVal → JsVal
  | .jarr xs => .jnum (Int.ofNat xs.length)
  | .jstr s => .jnum (Int.ofNat s.length)
  | .jobj fields => (fields.lookup "length").getD .jundefined
  | _ => .jundefined

/-- JavaScript numeric coercion for comparison, `none` standing for `NaN`
(composite values coerce through their string form; no claim depends on that
corner, so they are folded into `NaN` here, except the empty array). -/
def jsToNumber : JsVal → Option Int
  | .jnum n => some n
  | .jbool b => some (if b then 1 else 0)
  | .jnull => some 0
  | .jundefined => none
  | .jstr s => if s = "" then some 0 else s.toInt?
  | .jarr xs => if xs.isEmpty then some 0 else none
  | .jobj _ => none

/-- The comparison `v > 0` (any comparison with `NaN` is false). -/
def jsGtZero (v : JsVal) : Bool :=
  match jsToNumber v with
  | some n => 0 < n
  | none => false

/-- What `WirevizBomRow` renders for one raw BOM row: the cell values it reads
off the row, whether the unit text is shown (`row.unit && <Text>`), and the
part cell.  `link` is `some sub_part` exactly when the guard
`!!row.sub_part && !!row.pn` holds (the anchor's URL is produced from
`sub_part` by the host's `getDetailUrl`, modelled at the typed layer);
otherwise the cell shows a dash. -/
structure JsBomRowView where
  idx : JsVal
  designators : JsVal
  description : JsVal
  quantity : JsVal
  unitShown : Option JsVal
  link : Option JsVal
  pn : JsVal

/-- `WirevizBomRow` applied to one element of `bomRows`: every field read
(`row.idx`, `row.designators`, ..., `row.sub_part`, `row.pn`) throws a
`TypeError` if the row itself is `null` or `undefined`; on any other receiver
a property read cannot throw. -/
def renderRowJs (row : JsVal) : Except String JsBomRowView :=
  if nullish row then
    .error "TypeError: cannot read properties of null or undefined"
  else
    .ok {
      idx := jsGetField row "idx"
      designators := jsGetField row "designators"
      description := jsGetField row "description"
      quantity := jsGetField row "quantity"
      unitShown :=
        if truthy (jsGetField row "unit") then some (jsGetField row "unit") else none
      link :=
        if truthy (jsGetField row "sub_part") && truthy (jsGetField row "pn") then
          some (jsGetField row "sub_part")
        else
          none
      pn := jsGetField row "pn" }

/-- `bomRows.map((row) => <WirevizBomRow .../>)` over the elements of an
array, propagating the first thrown `TypeError`. -/
def renderRowsJs : List JsVal → Except String (List JsBomRowView)
  | [] => .ok []
  | row :: rest =>
    match renderRowJs row with
    | .error msg => .error msg
    | .ok r =>
      match renderRowsJs rest with
      | .error msg => .error msg
      | .ok rs => .ok (r :: rs)

/-- An alert block (`wirevizErrors && wirevizErrors.length > 0 && (... map ...)`):
`none` when the guard fails, otherwise the verbatim list of messages rendered
inside the single alert.  Calling `.map` on a non-array value throws. -/
def alertBlock (v : JsVal) : Except String (Option (List JsVal)) :=
  if truthy v && jsGtZero (jsLength v) then
    match v with
    | .jarr xs => .ok (some xs)
    | _ => .error "TypeError: v.map is not a function"
  else
    .ok none

/-- Everything the panel body derives from the raw host context. -/
structure WirevizView where
  errorsBlock : Option (List JsVal)
  warningsBlock : Option (List JsVal)
  bomRowViews : List JsBomRowView
  diagramShown : Bool
  sourceShown : Bool
  editShown : Bool

/-- The BOM table body: `bomRows.map(...)` is called unconditionally, so a
non-array value of `bomRows` throws a `TypeError` (`.map` is not a function
there). -/
def renderBomTable (v : JsVal) : Except String (List JsBomRowView) :=
  match v with
  | .jarr xs => renderRowsJs xs
  | _ => .error "TypeError: bomRows.map is not a function"

/-- The full derivation `WirevizPanel` performs on the raw host context: the
two alert blocks, the BOM table body, and the guards for the diagram, source
and edit sections. -/
def deriveViewJs (context : JsVal) : Except String WirevizView :=
  match alertBlock (wirevizErrors context) with
  | .error msg => .error msg
  | .ok errs =>
    match alertBlock (wirevizWarnings context) with
    | .error msg => .error msg
    | .ok warns =>
      match renderBomTable (bomRows context) with
      | .error msg => .error msg
      | .ok rows =>
        .ok {
          errorsBlock := errs
          warningsBlock := warns
          bomRowViews := rows
          diagramShown := truthy (wirevizDiagram context)
          sourceShown := truthy (wirevizSource context)
          editShown := truthy (canEdit context) }

/-- `{canEdit && newDiagram.modal}`. -/
def newDiagramModalShown (context : JsVal) : Bool := truthy (canEdit context)

/-- `{canEdit && deleteDiagram.modal}`. -/
def deleteDiagramModalShown (context : JsVal) : Bool := truthy (canEdit context)

/-- `{canEdit && (<Menu ...>)}` around the diagram-section menu. -/
def menuShown (context : JsVal) : Bool := truthy (canEdit context)

/-- The `Upload New Diagram` menu item: present whenever the menu is. -/
def uploadItemShown (context : JsVal) : Bool := menuShown context

/-- The `Remove Diagram` menu item: inside the menu, guarded by
`{wirevizSource && <Menu.Item ...>}`. -/
def removeItemShown (context : JsVal) : Bool :=
  menuShown context && truthy (wirevizSource context)

/-! ## Typed layer: BOM rows and section guards at the spec's declared types -/

/-- A raw BOM entry, at the field types the data model declares
(`idx: integer`, `designators`, `description`, `quantity: number`,
`unit: string | null`, `pn: string | null`, `sub_part: integer | null`). -/
structure BomEntry where
  idx : Int
  designators : String
  description : String
  quantity : Int
  unit : Option String
  pn : Option String
  sub_part : Option Int
deriving DecidableEq

/-- JavaScript truthiness of an `integer | null` field (`!!row.sub_part`):
`null` and `0` are falsy. -/
def jsTruthyOptInt : Option Int → Bool
  | none => false
  | some n => n != 0

/-- JavaScript truthiness of a `string | null` field (`!!row.pn`): `null` and
the empty string are falsy. -/
def jsTruthyOptStr : Option String → Bool
  | none => false
  | some s => s != ""

/-- Modelled from the spec: `getDetailUrl(ModelType.part, pk, true)` comes from
the host library `@inventreedb/ui`, which is out of scope; the in-repo panel
variant links the same cell to `/part/{sub_part}/`, and this model follows
that URL pattern.  The claims only need that the URL is non-empty and a
function of the part id alone. -/
def getDetailUrl (pk : Int) : String := "/part/" ++ toString pk ++ "/"

/-- `WirevizBomRow`:
`const partLink = (!!row.sub_part && !!row.pn) ? getDetailUrl(ModelType.part, row.sub_part, true) : ''`.
(`getD 0` is only evaluated in the truthy branch, where `sub_part` is `some`.) -/
def partLinkOf (row : BomEntry) : String :=
  if jsTruthyOptInt row.sub_part && jsTruthyOptStr row.pn then
    getDetailUrl (row.sub_part.getD 0)
  else
    ""

/-- The part cell `{partLink ? <Anchor href={partLink}/> : <Text>-</Text>}`:
`some url` when an anchor is rendered, `none` when the dash is. -/
def renderedPartLink (row : BomEntry) : Option String :=
  if partLinkOf row != "" then some (partLinkOf row) else none

/-- A display row: the entry's fields plus the computed `partLink`. -/
structure BomRow extends BomEntry where
  partLink : String
deriving DecidableEq

/-- One entry's display row. -/
def resolveRow (entry : BomEntry) : BomRow :=
  { entry with partLink := partLinkOf entry }

/-- The BOM table body: `bomRows.map((row) => <WirevizBomRow row={row} .../>)`
at the declared entry type. -/
def resolveBomRows (entries : List BomEntry) : List BomRow :=
  entries.map resolveRow

/-- What the diagram slot renders. -/
inductive DiagramSlot where
  | image : String → DiagramSlot
  | noDiagramAlert : DiagramSlot
deriving DecidableEq

/-- `{wirevizDiagram ? <Image src={wirevizDiagram}/> : <Alert .../>}` at the
declared type `string | null` of `wireviz_svg_file`. -/
def renderDiagram : Option String → DiagramSlot
  | some s => if s != "" then .image s else .noDiagramAlert
  | none => .noDiagramAlert

/-- The errors alert `{wirevizErrors && wirevizErrors.length > 0 && (<Alert>...)}`
at the declared type: `some` holds the verbatim message list of the single
alert block rendered. -/
def renderErrors (errors : List String) : Option (List String) :=
  if errors.length > 0 then some errors else none

/-- The warnings alert, same shape as the errors alert. -/
def renderWarnings (warnings : List String) : Option (List String) :=
  if warnings.length > 0 then some warnings else none

/-- The source-file section guard `{wirevizSource && (<Paper>...)}` at the
declared type `string | null` of `wireviz_source_file`. -/
def renderSourceSection (source : Option String) : Bool :=
  jsTruthyOptStr source

/-! ## The panel's form configurations -/

/-- One field of a form definition (`part: { value: context.id, hidden: true }`,
`file: {}`). -/
structure FormField where
  value : Option Int := none
  hidden : Bool := false
deriving DecidableEq

/-- What `onFormSuccess` does. -/
inductive FormAction where
  | reloadPage : FormAction
  | navigateToPart : FormAction
  | noRefresh : FormAction
deriving DecidableEq

/-- A form configuration as passed to `context.forms.create`. -/
structure FormConfig where
  title : String
  url : String
  method : String
  fields : List (String × FormField)
  successMessage : String
  onFormSuccess : FormAction

/-- Modelled from the spec: `apiUrl` is host-provided (out of scope) and
resolves a plugin path to a server URL; the claims depend only on the fixed
path, so it is modelled as the identity. -/
def apiUrl (path : String) : String := path

/-- `WirevizPanel`'s `deleteDiagram` form: `onFormSuccess` calls
`window.location.reload()`. -/
def deleteDiagram (contextId : Int) : FormConfig where
  title := "Remove Wireviz Diagram"
  url := apiUrl "/plugin/wireviz/delete/"
  method := "POST"
  fields := [("part", { value := some contextId, hidden := true })]
  successMessage := "Diagram removed"
  onFormSuccess := .reloadPage

/-- `WirevizPanel`'s `newDiagram` form: `onFormSuccess` calls
`window.location.reload()`. -/
def newDiagram (contextId : Int) : FormConfig where
  title := "Upload New Wireviz Diagram"
  url := apiUrl "/plugin/wireviz/upload/"
  method := "POST"
  fields := [("part", { value := some contextId, hidden := true }), ("file", {})]
  successMessage := "Diagram uploaded"
  onFormSuccess := .reloadPage

/-! ## Helper lemmas -/

theorem getDetailUrl_ne_empty (pk : Int) : getDetailUrl pk ≠ "" := by
  intro h
  have h2 := congrArg String.length h
  rw [getDetailUrl, String.length_append, String.length_append] at h2
  have h3 : ("/part/" : String).length = 6 := rfl
  have h4 : ("/" : String).length = 1 := rfl
  have h5 : ("" : String).length = 0 := rfl
  omega

/-! ## Claims -/

/-- C1 (amended): for every BOM entry, the rendered part link is non-null iff
`sub_part` is truthy (non-null and non-zero) AND `pn` is truthy (non-null and
non-empty); with both truthy, the link is non-null and determined by
`sub_part` alone; a null `pn` always yields no link. -/
theorem partLink_iff_truthy (row : BomEntry) :
    (renderedPartLink row).isSome = (jsTruthyOptInt row.sub_part && jsTruthyOptStr row.pn)
    ∧ (∀ pk : Int, row.sub_part = some pk →
        jsTruthyOptInt row.sub_part = true → jsTruthyOptStr row.pn = true →
        renderedPartLink row = some (getDetailUrl pk))
    ∧ (row.pn = none → renderedPartLink row = none) := by
  refine ⟨?_, ?_, ?_⟩
  · by_cases hguard : (jsTruthyOptInt row.sub_part && jsTruthyOptStr row.pn) = true
    · rw [hguard]
      have hne := getDetailUrl_ne_empty (row.sub_part.getD 0)
      simp [renderedPartLink, partLinkOf, hguard, hne]
    · have hg : (jsTruthyOptInt row.sub_part && jsTruthyOptStr row.pn) = false := by
        simpa using hguard
      rw [hg]
      simp [renderedPartLink, partLinkOf, hg]
  · intro pk hpk hsub hpn
    rw [hpk] at hsub
    have hne := getDetailUrl_ne_empty pk
    simp [renderedPartLink, partLinkOf, hpk, hsub, hpn, hne]
  · intro hpn
    simp [renderedPartLink, partLinkOf, hpn, jsTruthyOptStr]

/-- C1 witness: a concrete entry with `sub_part = 5` and `pn = "R1"` renders
the link `/part/5/`. -/
theorem partLink_iff_truthy_witness :
    renderedPartLink
        { idx := 1, designators := "R1", description := "resistor", quantity := 1,
          unit := none, pn := some "R1", sub_part := some 5 } = some (getDetailUrl 5) := by
  exact (partLink_iff_truthy _).2.1 5 rfl (by decide) (by decide)

/-- A concrete entry whose `sub_part` and `pn` are both non-null but whose
`pn` is the empty string. -/
def bomEntryEmptyPn : BomEntry :=
  { idx := 1, designators := "W1", description := "wire", quantity := 1,
    unit := none, pn := some "", sub_part := some 5 }

/-- C1 counterexample: `bomEntryEmptyPn` has `sub_part` and `pn` both
non-null, yet no part link is rendered — the code's guard is JavaScript
truthiness (`!!row.sub_part && !!row.pn`), not a null check. -/
theorem partLink_emptyPn_counterexample :
    bomEntryEmptyPn.sub_part ≠ none ∧ bomEntryEmptyPn.pn ≠ none
    ∧ renderedPartLink bomEntryEmptyPn = none := by decide

/-- C2: the BOM row resolver maps each entry to a row in place — same length,
same order, no entry dropped or duplicated — and each output row is its input
entry extended with the computed `partLink`. -/
theorem resolveBomRows_order_preserving :
    (∀ entries : List BomEntry, (resolveBomRows entries).length = entries.length)
    ∧ (∀ (entries : List BomEntry) (i : Nat),
        (resolveBomRows entries)[i]? = (entries[i]?).map resolveRow)
    ∧ (∀ entry : BomEntry,
        (resolveRow entry).toBomEntry = entry ∧ (resolveRow entry).partLink = partLinkOf entry) := by
  refine ⟨?_, ?_, ?_⟩
  · intro entries
    simp [resolveBomRows]
  · intro entries i
    simp [resolveBomRows]
  · intro entry
    exact ⟨rfl, rfl⟩

/-- C5: the diagram slot shows an image iff `wireviz_svg_file` is a non-empty
string; for `null` or the empty string it shows the explicit "no diagram"
alert, and a shown image always references exactly the given file. -/
theorem renderDiagram_available_iff :
    (∀ d : Option String,
      (∃ s, renderDiagram d = DiagramSlot.image s) ↔ ∃ s, d = some s ∧ s ≠ "")
    ∧ renderDiagram none = DiagramSlot.noDiagramAlert
    ∧ renderDiagram (some "") = DiagramSlot.noDiagramAlert
    ∧ (∀ s : String, s ≠ "" → renderDiagram (some s) = DiagramSlot.image s) := by
  refine ⟨?_, rfl, by decide, ?_⟩
  · intro d
    constructor
    · rintro ⟨s, hs⟩
      match d with
      | none => simp [renderDiagram] at hs
      | some t =>
        by_cases ht : (t != "") = true
        · exact ⟨t, rfl, by simpa using ht⟩
        · simp [renderDiagram, ht] at hs
    · rintro ⟨s, rfl, hs⟩
      exact ⟨s, by simp [renderDiagram, hs]⟩
  · intro s hs
    simp [renderDiagram, hs]

/-- C6: the error alert renders iff `wireviz_errors` is non-empty and the
warning alert iff `wireviz_warnings` is non-empty; a rendered block holds the
verbatim input list (no interpretation, no deduplication), and
`wireviz_errors = ["x"]` yields exactly one alert containing `"x"`. -/
theorem renderErrors_iff_nonempty :
    (∀ errors : List String, (renderErrors errors).isSome = !errors.isEmpty)
    ∧ (∀ errors : List String, renderErrors errors = none ∨ renderErrors errors = some errors)
    ∧ renderErrors [] = none
    ∧ renderErrors ["x"] = some ["x"]
    ∧ (∀ warnings : List String, (renderWarnings warnings).isSome = !warnings.isEmpty)
    ∧ (∀ warnings : List String,
        renderWarnings warnings = none ∨ renderWarnings warnings = some warnings) := by
  refine ⟨?_, ?_, rfl, by decide, ?_, ?_⟩
  · intro errors
    cases errors <;> simp [renderErrors]
  · intro errors
    cases errors with
    | nil => exact Or.inl rfl
    | cons e es => exact Or.inr (by simp [renderErrors])
  · intro warnings
    cases warnings <;> simp [renderWarnings]
  · intro warnings
    cases warnings with
    | nil => exact Or.inl rfl
    | cons w ws => exact Or.inr (by simp [renderWarnings])

/-- C7: the source-file link section renders iff `wireviz_source_file` is a
non-empty string. -/
theorem renderSourceSection_iff_nonempty :
    ∀ source : Option String,
      renderSourceSection source = true ↔ ∃ s, source = some s ∧ s ≠ "" := by
  intro source
  match source with
  | none => simp [renderSourceSection, jsTruthyOptStr]
  | some s => simp [renderSourceSection, jsTruthyOptStr]

/-- C8: the panel's diagram upload form and diagram delete form both configure
`onFormSuccess` to reload the page, post to the fixed endpoints, and submit
the target part identifier as a hidden field. -/
theorem panelForms_reload_on_success :
    ∀ contextId : Int,
      (newDiagram contextId).onFormSuccess = FormAction.reloadPage
      ∧ (deleteDiagram contextId).onFormSuccess = FormAction.reloadPage
      ∧ (newDiagram contextId).url = "/plugin/wireviz/upload/"
      ∧ (deleteDiagram contextId).url = "/plugin/wireviz/delete/"
      ∧ (newDiagram contextId).method = "POST"
      ∧ (deleteDiagram contextId).method = "POST"
      ∧ (newDiagram contextId).fields =
          [("part", { value := some contextId, hidden := true }), ("file", {})]
      ∧ (deleteDiagram contextId).fields =
          [("part", { value := some contextId, hidden := true })] := by
  intro contextId
  exact ⟨rfl, rfl, rfl, rfl, rfl, rfl, rfl, rfl⟩

/-- C3: the context normalizer defaults every missing array field to the empty
sequence and every missing scalar field to `null`; an absent host context
(`null`/`undefined`) gets the same defaults, and a missing `wireviz_bom_data`
in particular resolves to an empty BOM row sequence, not an error. -/
theorem normalizer_defaults :
    (∀ (context : JsVal) (fields : List (String × JsVal)),
      wirevizContextOf context = JsVal.jobj fields →
        ((fields.lookup "wireviz_bom_data" = none → bomRows context = .jarr [])
        ∧ (fields.lookup "wireviz_errors" = none → wirevizErrors context = .jarr [])
        ∧ (fields.lookup "wireviz_warnings" = none → wirevizWarnings context = .jarr [])
        ∧ (fields.lookup "wireviz_svg_file" = none → wirevizDiagram context = .jnull)
        ∧ (fields.lookup "wireviz_source_file" = none → wirevizSource context = .jnull)))
    ∧ (bomRows .jnull = .jarr [] ∧ wirevizErrors .jnull = .jarr []
      ∧ wirevizWarnings .jnull = .jarr [] ∧ wirevizDiagram .jnull = .jnull
      ∧ wirevizSource .jnull = .jnull
      ∧ bomRows .jundefined = .jarr [] ∧ wirevizErrors .jundefined = .jarr []
      ∧ wirevizWarnings .jundefined = .jarr [] ∧ wirevizDiagram .jundefined = .jnull
      ∧ wirevizSource .jundefined = .jnull) := by
  constructor
  · intro context fields hctx
    refine ⟨?_, ?_, ?_, ?_, ?_⟩ <;> intro hlk
    · simp [bomRows, hctx, jsGetField, hlk, jsCoalesce, nullish]
    · simp [wirevizErrors, hctx, jsGetField, hlk, jsCoalesce, nullish]
    · simp [wirevizWarnings, hctx, jsGetField, hlk, jsCoalesce, nullish]
    · simp [wirevizDiagram, hctx, jsGetField, hlk, jsCoalesce, nullish]
    · simp [wirevizSource, hctx, jsGetField, hlk, jsCoalesce, nullish]
  · exact ⟨rfl, rfl, rfl, rfl, rfl, rfl, rfl, rfl, rfl, rfl⟩

/-- C3 witness: at the concrete host context `{ context: {} }` every field
takes its default. -/
theorem normalizer_defaults_witness :
    bomRows (mkCtx []) = .jarr [] ∧ wirevizErrors (mkCtx []) = .jarr []
    ∧ wirevizWarnings (mkCtx []) = .jarr [] ∧ wirevizDiagram (mkCtx []) = .jnull
    ∧ wirevizSource (mkCtx []) = .jnull := by
  have h := normalizer_defaults.1 (mkCtx []) [] rfl
  exact ⟨h.1 rfl, h.2.1 rfl, h.2.2.1 rfl, h.2.2.2.1 rfl, h.2.2.2.2 rfl⟩

/-- C9: the edit capability defaults to false when the nested
`context.can_edit` flag is absent or falsy, and the upload/delete modals and
the edit menu (with both its items) render iff the capability value is
truthy. -/
theorem canEdit_defaults_false :
    (∀ fields : List (String × JsVal),
      fields.lookup "context" = none → canEdit (mkCtx fields) = .jbool false)
    ∧ (∀ fields inner : List (String × JsVal),
      fields.lookup "context" = some (.jobj inner) →
      inner.lookup "can_edit" = none → canEdit (mkCtx fields) = .jbool false)
    ∧ (∀ (fields inner : List (String × JsVal)) (v : JsVal),
      fields.lookup "context" = some (.jobj inner) →
      inner.lookup "can_edit" = some v → truthy v = false →
      truthy (canEdit (mkCtx fields)) = false)
    ∧ (∀ context : JsVal, truthy (canEdit context) = false →
        newDiagramModalShown context = false ∧ deleteDiagramModalShown context = false
        ∧ menuShown context = false ∧ uploadItemShown context = false
        ∧ removeItemShown context = false)
    ∧ (∀ context : JsVal, truthy (canEdit context) = true →
        newDiagramModalShown context = true ∧ deleteDiagramModalShown context = true
        ∧ menuShown context = true ∧ uploadItemShown context = true)
    ∧ truthy (JsVal.jbool false) = false := by
  refine ⟨?_, ?_, ?_, ?_, ?_, rfl⟩
  · intro fields hlk
    simp [canEdit, wirevizContextOf_mkCtx, jsGetField, hlk, jsOptChainField, nullish, jsCoalesce]
  · intro fields inner h1 h2
    simp [canEdit, wirevizContextOf_mkCtx, jsGetField, h1, h2, jsOptChainField, nullish,
      jsCoalesce]
  · intro fields inner v h1 h2 h3
    have hce : canEdit (mkCtx fields) = jsCoalesce v (.jbool false) := by
      simp [canEdit, wirevizContextOf_mkCtx, jsGetField, h1, h2, jsOptChainField, nullish]
    rw [hce, jsCoalesce]
    by_cases hv : nullish v = true
    · simp [hv, truthy]
    · simp at hv
      simp [hv, h3]
  · intro context h
    exact ⟨h, h, h, h, by simp [removeItemShown, menuShown, h]⟩
  · intro context h
    exact ⟨h, h, h, h⟩

/-- C9 witness: a host context without the nested flag hides the edit UI, a
truthy flag shows it. -/
theorem canEdit_defaults_false_witness :
    canEdit (mkCtx []) = .jbool false
    ∧ menuShown (mkCtx [("context", .jobj [("can_edit", .jbool true)])]) = true
    ∧ menuShown (mkCtx [("context", .jobj [("can_edit", .jbool false)])]) = false := by
  have h1 := canEdit_defaults_false.1 [] rfl
  have h2 := (canEdit_defaults_false.2.2.2.2.1
    (mkCtx [("context", .jobj [("can_edit", .jbool true)])]) rfl).2.2.1
  have h3 := (canEdit_defaults_false.2.2.2.1
    (mkCtx [("context", .jobj [("can_edit", .jbool false)])]) rfl).2.2.1
  exact ⟨h1, h2, h3⟩

/-- C10: given edit capability, the `Remove Diagram` menu item is offered iff
`wireviz_source_file` is truthy (a non-empty value); the gate is the source
file, not the SVG diagram — a concrete context with a diagram but no source
file offers no remove action. -/
theorem removeItem_gated_on_source (context : JsVal)
    (hEdit : truthy (canEdit context) = true) :
    removeItemShown context = truthy (wirevizSource context)
    ∧ removeItemShown (mkCtx [("wireviz_svg_file", .jstr "a.svg"),
        ("context", .jobj [("can_edit", .jbool true)])]) = false
    ∧ wirevizDiagram (mkCtx [("wireviz_svg_file", .jstr "a.svg"),
        ("context", .jobj [("can_edit", .jbool true)])]) = .jstr "a.svg"
    ∧ truthy (canEdit (mkCtx [("wireviz_svg_file", .jstr "a.svg"),
        ("context", .jobj [("can_edit", .jbool true)])])) = true := by
  refine ⟨?_, rfl, rfl, rfl⟩
  simp [removeItemShown, menuShown, hEdit]

/-- C10 witness: with edit capability and a source file present, the remove
item is offered. -/
theorem removeItem_gated_on_source_witness :
    removeItemShown (mkCtx [("wireviz_source_file", .jstr "x.wireviz"),
      ("context", .jobj [("can_edit", .jbool true)])]) = true := by
  have h := (removeItem_gated_on_source
    (mkCtx [("wireviz_source_file", .jstr "x.wireviz"),
      ("context", .jobj [("can_edit", .jbool true)])]) rfl).1
  exact h.trans rfl

/-! ## C4: totality of the derivation, and where it actually throws -/

/-- A value of an alert-typed field (`wireviz_errors`, `wireviz_warnings`)
that the derivation can consume without throwing: absent, nullish, or an
array. -/
def alertFieldOk : Option JsVal → Bool
  | none => true
  | some .jundefined => true
  | some .jnull => true
  | some (.jarr _) => true
  | some _ => false

/-- A value of `wireviz_bom_data` that the derivation can consume without
throwing: absent, nullish, or an array of non-nullish rows. -/
def bomFieldOk : Option JsVal → Bool
  | none => true
  | some .jundefined => true
  | some .jnull => true
  | some (.jarr rows) => rows.all (fun row => !(nullish row))
  | some _ => false

theorem renderRowJs_ok (row : JsVal) (h : nullish row = false) :
    ∃ r, renderRowJs row = .ok r := by
  have heq : renderRowJs row =
      .ok { idx := jsGetField row "idx"
            designators := jsGetField row "designators"
            description := jsGetField row "description"
            quantity := jsGetField row "quantity"
            unitShown :=
              if truthy (jsGetField row "unit") then some (jsGetField row "unit") else none
            link :=
              if truthy (jsGetField row "sub_part") && truthy (jsGetField row "pn") then
                some (jsGetField row "sub_part")
              else
                none
            pn := jsGetField row "pn" } := by
    simp [renderRowJs, h]
  exact ⟨_, heq⟩

theorem renderRowsJs_ok (rows : List JsVal) (h : ∀ row ∈ rows, nullish row = false) :
    ∃ rs, renderRowsJs rows = .ok rs := by
  induction rows with
  | nil => exact ⟨[], rfl⟩
  | cons row rest ih =>
    obtain ⟨r, hr⟩ := renderRowJs_ok row (h row (List.mem_cons_self row rest))
    obtain ⟨rs, hrs⟩ := ih (fun y hy => h y (List.mem_cons_of_mem row hy))
    exact ⟨r :: rs, by simp [renderRowsJs, hr, hrs]⟩

theorem renderBomTable_ok (ov : Option JsVal) (h : bomFieldOk ov = true) :
    ∃ rs, renderBomTable (jsCoalesce (ov.getD .jundefined) (.jarr [])) = .ok rs := by
  match ov with
  | none => exact ⟨[], rfl⟩
  | some .jundefined => exact ⟨[], rfl⟩
  | some .jnull => exact ⟨[], rfl⟩
  | some (.jarr rows) =>
    have hall : ∀ row ∈ rows, nullish row = false := by
      simpa [bomFieldOk, List.all_eq_true] using h
    obtain ⟨rs, hrs⟩ := renderRowsJs_ok rows hall
    exact ⟨rs, by simpa [renderBomTable, jsCoalesce, nullish] using hrs⟩
  | some (.jbool b) => simp [bomFieldOk] at h
  | some (.jnum n) => simp [bomFieldOk] at h
  | some (.jstr s) => simp [bomFieldOk] at h
  | some (.jobj fs) => simp [bomFieldOk] at h

theorem alertBlock_coalesce_ok (ov : Option JsVal) (h : alertFieldOk ov = true) :
    ∃ r, alertBlock (jsCoalesce (ov.getD .jundefined) (.jarr [])) = .ok r := by
  match ov with
  | none => exact ⟨none, rfl⟩
  | some .jundefined => exact ⟨none, rfl⟩
  | some .jnull => exact ⟨none, rfl⟩
  | some (.jarr xs) =>
    by_cases hx : jsGtZero (jsLength (.jarr xs)) = true
    · exact ⟨some xs, by simp [alertBlock, jsCoalesce, nullish, truthy, hx]⟩
    · have hx2 : jsGtZero (jsLength (.jarr xs)) = false := by simpa using hx
      exact ⟨none, by simp [alertBlock, jsCoalesce, nullish, truthy, hx2]⟩
  | some (.jbool b) => simp [alertFieldOk] at h
  | some (.jnum n) => simp [alertFieldOk] at h
  | some (.jstr s) => simp [alertFieldOk] at h
  | some (.jobj fs) => simp [alertFieldOk] at h

theorem bomRows_mkCtx (fields : List (String × JsVal)) :
    bomRows (mkCtx fields) =
      jsCoalesce ((fields.lookup "wireviz_bom_data").getD .jundefined) (.jarr []) := rfl

theorem wirevizErrors_mkCtx (fields : List (String × JsVal)) :
    wirevizErrors (mkCtx fields) =
      jsCoalesce ((fields.lookup "wireviz_errors").getD .jundefined) (.jarr []) := rfl

theorem wirevizWarnings_mkCtx (fields : List (String × JsVal)) :
    wirevizWarnings (mkCtx fields) =
      jsCoalesce ((fields.lookup "wireviz_warnings").getD .jundefined) (.jarr []) := rfl

theorem wirevizDiagram_mkCtx (fields : List (String × JsVal)) :
    wirevizDiagram (mkCtx fields) =
      jsCoalesce ((fields.lookup "wireviz_svg_file").getD .jundefined) .jnull := rfl

theorem wirevizSource_mkCtx (fields : List (String × JsVal)) :
    wirevizSource (mkCtx fields) =
      jsCoalesce ((fields.lookup "wireviz_source_file").getD .jundefined) .jnull := rfl

theorem canEdit_mkCtx (fields : List (String × JsVal)) :
    canEdit (mkCtx fields) =
      jsCoalesce (jsOptChainField ((fields.lookup "context").getD .jundefined) "can_edit")
        (.jbool false) := rfl

/-- C4 (amended): the context normalization itself never throws, and the
downstream derivation never throws provided the array-typed fields are
absent, nullish, or genuine arrays (with non-nullish BOM rows); unknown extra
fields have no effect on the output; an absent host context also derives
fine.  (As stated the claim is false: a malformed non-array value in an
array-typed field is kept by `?? []` and the unconditional `.map` then
throws — see the counterexample.) -/
theorem deriveViewJs_total_on_wellformed :
    (∀ fields : List (String × JsVal),
      bomFieldOk (fields.lookup "wireviz_bom_data") = true →
      alertFieldOk (fields.lookup "wireviz_errors") = true →
      alertFieldOk (fields.lookup "wireviz_warnings") = true →
      ∃ view, deriveViewJs (mkCtx fields) = .ok view)
    ∧ (∀ fields fields2 : List (String × JsVal),
      (∀ key ∈ ["wireviz_bom_data", "wireviz_svg_file", "wireviz_errors",
        "wireviz_warnings", "wireviz_source_file", "context"],
        fields2.lookup key = fields.lookup key) →
      deriveViewJs (mkCtx fields2) = deriveViewJs (mkCtx fields))
    ∧ (∃ view, deriveViewJs .jnull = .ok view)
    ∧ (∃ view, deriveViewJs .jundefined = .ok view) := by
  refine ⟨?_, ?_, ⟨_, rfl⟩, ⟨_, rfl⟩⟩
  · intro fields hbom herr hwarn
    obtain ⟨e, he⟩ := alertBlock_coalesce_ok _ herr
    obtain ⟨w, hw⟩ := alertBlock_coalesce_ok _ hwarn
    obtain ⟨rs, hrs⟩ := renderBomTable_ok _ hbom
    have he2 : alertBlock (wirevizErrors (mkCtx fields)) = .ok e := by
      rw [wirevizErrors_mkCtx]; exact he
    have hw2 : alertBlock (wirevizWarnings (mkCtx fields)) = .ok w := by
      rw [wirevizWarnings_mkCtx]; exact hw
    have hr2 : renderBomTable (bomRows (mkCtx fields)) = .ok rs := by
      rw [bomRows_mkCtx]; exact hrs
    have heq : deriveViewJs (mkCtx fields) =
        .ok { errorsBlock := e
              warningsBlock := w
              bomRowViews := rs
              diagramShown := truthy (wirevizDiagram (mkCtx fields))
              sourceShown := truthy (wirevizSource (mkCtx fields))
              editShown := truthy (canEdit (mkCtx fields)) } := by
      unfold deriveViewJs
      rw [he2, hw2, hr2]
    exact ⟨_, heq⟩
  · intro fields fields2 hagree
    have h1 : bomRows (mkCtx fields2) = bomRows (mkCtx fields) := by
      rw [bomRows_mkCtx, bomRows_mkCtx, hagree "wireviz_bom_data" (by simp)]
    have h2 : wirevizErrors (mkCtx fields2) = wirevizErrors (mkCtx fields) := by
      rw [wirevizErrors_mkCtx, wirevizErrors_mkCtx, hagree "wireviz_errors" (by simp)]
    have h3 : wirevizWarnings (mkCtx fields2) = wirevizWarnings (mkCtx fields) := by
      rw [wirevizWarnings_mkCtx, wirevizWarnings_mkCtx, hagree "wireviz_warnings" (by simp)]
    have h4 : wirevizDiagram (mkCtx fields2) = wirevizDiagram (mkCtx fields) := by
      rw [wirevizDiagram_mkCtx, wirevizDiagram_mkCtx, hagree "wireviz_svg_file" (by simp)]
    have h5 : wirevizSource (mkCtx fields2) = wirevizSource (mkCtx fields) := by
      rw [wirevizSource_mkCtx, wirevizSource_mkCtx, hagree "wireviz_source_file" (by simp)]
    have h6 : canEdit (mkCtx fields2) = canEdit (mkCtx fields) := by
      rw [canEdit_mkCtx, canEdit_mkCtx, hagree "context" (by simp)]
    simp [deriveViewJs, h1, h2, h3, h4, h5, h6]

/-- C4 witness: a concrete context carrying one error message (and no other
fields) derives a view successfully. -/
theorem deriveViewJs_total_on_wellformed_witness :
    ∃ view, deriveViewJs (mkCtx [("wireviz_errors", .jarr [.jstr "x"])]) = .ok view :=
  deriveViewJs_total_on_wellformed.1 [("wireviz_errors", .jarr [.jstr "x"])] rfl rfl rfl

/-- C4 counterexample: a non-array `wireviz_bom_data` is kept by `?? []`
(which only replaces nullish values) and the unconditional `bomRows.map(...)`
then throws a `TypeError` — the derivation does not "never throw" on
malformed optional fields. -/
theorem deriveViewJs_throws_on_nonarray_bom :
    deriveViewJs (mkCtx [("wireviz_bom_data", .jnum 5)]) =
      .error "TypeError: bomRows.map is not a function" := rfl
